import Mathlib

/-!
Verification of the contact-scraper pipeline (`app.py`).

The Python source is shallowly embedded: pure string manipulation is
translated to functions on `String` / `List Char`; network effects
(`requests.Session.get`, search providers, BeautifulSoup parsing) are
modelled by explicit inputs (`FetchResult`, anchor/text fields of `Html`,
provider data records), so every function of the embedding is a total,
executable Lean definition.
-/

set_option maxHeartbeats 1000000

namespace ContactScraper

/-! ### Python string primitives -/

/-- Characters stripped by Python `str.strip()` and matched by `\s` (ASCII). -/
def isPySpace (c : Char) : Bool :=
  c = ' ' || c = '\t' || c = '\n' || c = '\r' || c = '\x0b' || c = '\x0c'

/-- Python `str.strip()` on a character list. -/
def pyStrip (cs : List Char) : List Char :=
  ((cs.dropWhile isPySpace).reverse.dropWhile isPySpace).reverse

/-- Python `str.strip()`. -/
def pyStripS (s : String) : String := String.mk (pyStrip s.toList)

/-- Python `str.lower()` (the scraped data is ASCII, where `Char.toLower` agrees). -/
def pyLower (cs : List Char) : List Char := cs.map Char.toLower

/-- Python `str.lower()` on `String`. -/
def pyLowerS (s : String) : String := String.mk (pyLower s.toList)

/-- Does the list start with the given other list? -/
def listStartsWith : List Char → List Char → Bool
  | _, [] => true
  | [], _ :: _ => false
  | a :: hay, b :: pfx => a = b && listStartsWith hay pfx

/-- Is `needle` a contiguous sublist of `hay`? -/
def listContains (hay needle : List Char) : Bool :=
  match hay with
  | [] => needle.isEmpty
  | _ :: rest => listStartsWith hay needle || listContains rest needle

/-- Python `needle in hay` substring test. -/
def containsSub (hay needle : String) : Bool := listContains hay.toList needle.toList

/-- Python `hay.startswith(pfx)`. -/
def startsWithS (s pfx : String) : Bool := listStartsWith s.toList pfx.toList

/-- Python `hay.endswith(suf)`. -/
def endsWithS (s suf : String) : Bool := listStartsWith s.toList.reverse suf.toList.reverse

/-- Characters of `l` strictly before the first occurrence of the substring
`needle` (all of `l` when `needle` never occurs). -/
def takeUntilSub (needle : List Char) : List Char → List Char
  | [] => []
  | c :: rest => if listStartsWith (c :: rest) needle then [] else c :: takeUntilSub needle rest

/-- Adding an element to a Python `set`, modelled as a duplicate-free list:
membership agrees with Python set membership. -/
def sinsert (x : String) (l : List String) : List String := if x ∈ l then l else l ++ [x]

/-- The `seen`/`out` deduplication loop used by both search backends:
keeps the first occurrence of each element, in order. -/
def dedupFirstAux (seen : List String) : List String → List String
  | [] => []
  | u :: rest => if u ∈ seen then dedupFirstAux seen rest else u :: dedupFirstAux (u :: seen) rest

/-- First-occurrence deduplication. -/
def dedupFirst (l : List String) : List String := dedupFirstAux [] l

/-! ### App constants (`app.py` lines 69-78) -/

/-- `BLACKLIST_PARTS` from `app.py`. -/
def BLACKLIST_PARTS : List String :=
  ["linkedin.", "facebook.", "twitter.", "instagram.", "youtube.",
   "crunchbase.", "zoominfo.", "glassdoor.", "yellowpages.", "yelp.",
   "wikipedia.", "bing.com", "google.com", "amazon."]

/-- `BLOCK_PHRASES` from `app.py`. -/
def BLOCK_PHRASES : List String :=
  ["unusual traffic", "recaptcha", "are you a robot",
   "verify you're a human", "sorry, you have been blocked"]

/-- `is_blacklisted_domain` from `app.py`: lowercases the netloc and checks
whether any denylist fragment occurs inside it. -/
def is_blacklisted_domain (netloc : String) : Bool :=
  BLACKLIST_PARTS.any (fun b => containsSub (pyLowerS netloc) b)

/-- `page_has_block` from `app.py`: lowercases the body and scans for any
known block phrase. -/
def page_has_block (html_text : String) : Bool :=
  BLOCK_PHRASES.any (fun sig => containsSub (pyLowerS html_text) sig)

/-! ### The two `re.findall` patterns of `extract_contacts_from_page`

Email pattern: `[a-zA-Z0-9._%+-]+@[a-zA-Z0-9.-]+\.[a-zA-Z]{2,}`.
Phone pattern: `\+?\d[\d\-\s().]{6,}\d`.
The matchers below reproduce Python's scan semantics for these two concrete
patterns: leftmost match, greedy quantifiers with backtracking, and
continuation of the scan at the end of each match. -/

/-- ASCII letter, as matched by `[a-zA-Z]`. -/
def isAsciiAlpha (c : Char) : Bool := ('a' ≤ c && c ≤ 'z') || ('A' ≤ c && c ≤ 'Z')

/-- ASCII digit, as matched by `[0-9]` / `\d` (Python classes here are ASCII). -/
def isAsciiDigit (c : Char) : Bool := '0' ≤ c && c ≤ '9'

/-- Character class `[a-zA-Z0-9._%+-]` (email local part). -/
def isLocalChar (c : Char) : Bool :=
  isAsciiAlpha c || isAsciiDigit c || c = '.' || c = '_' || c = '%' || c = '+' || c = '-'

/-- Character class `[a-zA-Z0-9.-]` (email domain part). -/
def isDomainChar (c : Char) : Bool :=
  isAsciiAlpha c || isAsciiDigit c || c = '.' || c = '-'

/-- Character class `[\d\-\s().]` (phone body). -/
def isPhoneBodyChar (c : Char) : Bool :=
  isAsciiDigit c || c = '-' || isPySpace c || c = '(' || c = ')' || c = '.'

/-- Backtracking of `[a-zA-Z0-9.-]+\.` inside the maximal domain-char run
`dom`: the greedy `+` gives characters back one at a time, so the chosen dot
is the rightmost index `i ≥ 1` such that `dom` has `'.'` at `i` followed by at
least two ASCII letters. Tries indices `k, k-1, …, 1`. -/
def domSplitGo (dom : List Char) : Nat → Option Nat
  | 0 => none
  | i + 1 =>
    if (dom.drop (i + 1)).headD ' ' = '.' ∧
        2 ≤ ((dom.drop (i + 2)).takeWhile isAsciiAlpha).length
    then some (i + 1)
    else domSplitGo dom i

/-- Attempt an email-pattern match anchored at the head of `cs`; on success
returns the matched characters and the remainder of the input. -/
def emailMatchAt (cs : List Char) : Option (List Char × List Char) :=
  let loc := cs.takeWhile isLocalChar
  if loc.isEmpty then none
  else if (cs.drop loc.length).headD ' ' = '@' then
    let r2 := cs.drop (loc.length + 1)
    let dom := r2.takeWhile isDomainChar
    match domSplitGo dom dom.length with
    | some i =>
      let t := (dom.drop (i + 1)).takeWhile isAsciiAlpha
      some (loc ++ '@' :: (dom.take i ++ '.' :: t),
            dom.drop (i + 1 + t.length) ++ r2.drop dom.length)
    | none => none
  else none

/-- Scan loop of `re.findall` for the email pattern. The fuel argument is the
input length; every step consumes at least one character while spending one
unit of fuel, so the fuel never runs out before the input does. -/
def emailFindAllGo : Nat → List Char → List (List Char)
  | 0, _ => []
  | _, [] => []
  | fuel + 1, c :: cs =>
    match emailMatchAt (c :: cs) with
    | some (m, rest) => m :: emailFindAllGo fuel rest
    | none => emailFindAllGo fuel cs

/-- `re.findall` for the email pattern. -/
def emailFindAll (cs : List Char) : List (List Char) := emailFindAllGo cs.length cs

/-- Backtracking of `[\d\-\s().]{6,}\d` inside the maximal phone-body run
`body`: the rightmost index `m ≥ 6` holding a digit is consumed by the final
`\d`. Tries indices `k, k-1, …, 1`. -/
def phonePickGo (body : List Char) : Nat → Option Nat
  | 0 => none
  | m + 1 =>
    if 6 ≤ m + 1 && (body.getD (m + 1) ' ').isDigit then some (m + 1)
    else phonePickGo body m

/-- Attempt a phone-pattern match at a first digit `d` with remainder `rest`. -/
def phoneCore (d : Char) (rest : List Char) : Option (List Char × List Char) :=
  let body := rest.takeWhile isPhoneBodyChar
  match phonePickGo body body.length with
  | none => none
  | some m => some (d :: body.take (m + 1), body.drop (m + 1) ++ rest.drop body.length)

/-- Attempt a phone-pattern match anchored at the head of `cs`. A leading
`'+'` must be followed by a digit (the empty alternative of `\+?` would
require `\d` to match `'+'` itself, which fails). -/
def phoneMatchAt (cs : List Char) : Option (List Char × List Char) :=
  match cs with
  | '+' :: d :: rest =>
    if d.isDigit then (phoneCore d rest).map (fun p => ('+' :: p.1, p.2)) else none
  | d :: rest => if d.isDigit then phoneCore d rest else none
  | [] => none

/-- Scan loop of `re.findall` for the phone pattern (fuel as for emails). -/
def phoneFindAllGo : Nat → List Char → List (List Char)
  | 0, _ => []
  | _, [] => []
  | fuel + 1, c :: cs =>
    match phoneMatchAt (c :: cs) with
    | some (m, rest) => m :: phoneFindAllGo fuel rest
    | none => phoneFindAllGo fuel cs

/-- `re.findall` for the phone pattern. -/
def phoneFindAll (cs : List Char) : List (List Char) := phoneFindAllGo cs.length cs

/-- An anchored match of the email pattern
`[a-zA-Z0-9._%+-]+@[a-zA-Z0-9.-]+\.[a-zA-Z]{2,}`: the whole string splits as
`local ++ "@" ++ domain ++ "." ++ tld` with a non-empty local part of local
characters, a non-empty domain of domain characters, and a final label of at
least two ASCII letters. -/
def MatchesEmail (s : String) : Prop :=
  ∃ l d t : List Char,
    s.toList = l ++ '@' :: (d ++ '.' :: t) ∧
    l ≠ [] ∧ l.all isLocalChar = true ∧
    d ≠ [] ∧ d.all isDomainChar = true ∧
    t.all isAsciiAlpha = true ∧ 2 ≤ t.length

/-! ### Page model and `extract_contacts_from_page`

`requests` and BeautifulSoup are external collaborators; a fetched page is
modelled by the data the code reads from them: the raw body (scanned for
block phrases), the `href`/text of each `<a href=…>` tag, and the
`soup.get_text(" ", strip=True)` text. A fetch either raises (`exn`) or
yields a status code and a page. -/

/-- One `<a href=…>` element: its `href` attribute and its anchor text. -/
structure Anchor where
  href : String
  text : String
deriving DecidableEq

/-- The parts of an HTTP response body that `app.py` reads. -/
structure Html where
  raw : String
  anchors : List Anchor
  text : String
deriving DecidableEq

/-- Outcome of `SESSION.get`: a raised exception or a status plus body. -/
inductive FetchResult where
  | exn : FetchResult
  | response (status : Nat) (page : Html) : FetchResult

/-- `href.split("mailto:")[1].split("?")[0].strip()` for an href that starts
with `"mailto:"`: the second `split` field is the text after the leading
`"mailto:"` up to its next occurrence; then cut at the first `'?'` and strip. -/
def mailtoTarget (href : String) : String :=
  String.mk (pyStrip ((takeUntilSub "mailto:".toList (href.toList.drop 7)).takeWhile (· ≠ '?')))

/-- `href.split("tel:")[1].split("?")[0].strip()` for an href that starts
with `"tel:"`. -/
def telTarget (href : String) : String :=
  String.mk (pyStrip ((takeUntilSub "tel:".toList (href.toList.drop 4)).takeWhile (· ≠ '?')))

/-- The mailto/tel loop of `extract_contacts_from_page`: walks the page's
anchors in order, adding non-empty mailto targets to the email set and
non-empty tel targets to the phone set. -/
def collectAnchorContacts : List Anchor → List String × List String → List String × List String
  | [], acc => acc
  | a :: rest, (es, ps) =>
    if startsWithS a.href "mailto:" then
      let mail := mailtoTarget a.href
      collectAnchorContacts rest (if mail ≠ "" then sinsert mail es else es, ps)
    else if startsWithS a.href "tel:" then
      let tel := telTarget a.href
      collectAnchorContacts rest (es, if tel ≠ "" then sinsert tel ps else ps)
    else collectAnchorContacts rest (es, ps)

/-- The placeholder filter
`e.lower().endswith(("@example.com", "@test.com", "@email.com"))`. -/
def hasPlaceholderSuffix (e : String) : Bool :=
  ["@example.com", "@test.com", "@email.com"].any (fun suf => endsWithS (pyLowerS e) suf)

/-- The free-text email loop: each regex match is stripped, then kept when it
has length at least 6 and does not end (case-insensitively) with a
placeholder domain. -/
def collectTextEmails : List (List Char) → List String → List String
  | [], es => es
  | m :: rest, es =>
    let e := String.mk (pyStrip m)
    collectTextEmails rest
      (if 6 ≤ e.length && !(hasPlaceholderSuffix e) then sinsert e es else es)

/-- The free-text phone loop: each regex match is stripped, then kept when
its digit-only form (`re.sub(r"\D", "", p)`) has length at least 8. -/
def collectTextPhones : List (List Char) → List String → List String
  | [], ps => ps
  | m :: rest, ps =>
    let p := String.mk (pyStrip m)
    collectTextPhones rest
      (if 8 ≤ (p.toList.filter Char.isDigit).length then sinsert p ps else ps)

/-- `extract_contacts_from_page` from `app.py`: returns
`(emails, phones, blocked_detected)`. A raised network exception and an HTTP
status of 400 or more both yield `([], [], false)`; a body containing a block
phrase yields `([], [], true)`; otherwise mailto/tel anchors and the two
regex scans populate the sets and the blocked flag stays `false`. The Python
sets are modelled as duplicate-free lists built by `sinsert`, so membership
agrees with Python set membership. -/
def extract_contacts_from_page (fetch : FetchResult) : List String × List String × Bool :=
  match fetch with
  | .exn => ([], [], false)
  | .response status page =>
    if 400 ≤ status then ([], [], false)
    else if page_has_block page.raw then ([], [], true)
    else
      let anchored := collectAnchorContacts page.anchors ([], [])
      let emails := collectTextEmails (emailFindAll page.text.toList) anchored.1
      let phones := collectTextPhones (phoneFindAll page.text.toList) anchored.2
      (emails, phones, false)

/-! ### `discover_contact_like_pages` and `get_full_contacts_for_site` -/

/-- `urllib.parse.urljoin` for the reference shapes this code produces: an
absolute-path or bare relative reference joined onto a base origin. -/
def joinUrl (base href : String) : String :=
  if startsWithS href "/" then base ++ href else base ++ "/" ++ href

/-- The seeded candidate set of `discover_contact_like_pages`: the homepage
plus six fixed contact-like paths. -/
def fixedCandidates (base_site : String) : List String :=
  [base_site, joinUrl base_site "/contact", joinUrl base_site "/contact-us",
   joinUrl base_site "/about", joinUrl base_site "/about-us",
   joinUrl base_site "/support", joinUrl base_site "/customer-care"]

/-- The nav-link filter: anchor text, stripped and lowercased, contains
`"contact"`, `"support"` or `"about"`. -/
def navMatches (a : Anchor) : Bool :=
  ["contact", "support", "about"].any
    (fun k => containsSub (pyLowerS (pyStripS a.text)) k)

/-- Where a matching nav link points: the href itself when absolute,
otherwise joined onto the base site. -/
def linkTarget (base : String) (a : Anchor) : String :=
  if startsWithS a.href "http" then a.href else joinUrl base a.href

/-- `discover_contact_like_pages` from `app.py`. The homepage fetch it
performs is an explicit input; the Python `set` of candidates is modelled as
a duplicate-free list. A failed, error-status or blocked homepage fetch
leaves only the seeded candidates; otherwise every matching nav link is
added, with no cap on the count. -/
def discover_contact_like_pages (base_site : String) (fetch : FetchResult) : List String :=
  if base_site = "" then []
  else
    let cands := (fixedCandidates base_site).foldl (fun acc u => sinsert u acc) []
    match fetch with
    | .exn => cands
    | .response status page =>
      if status < 400 && !(page_has_block page.raw) then
        page.anchors.foldl
          (fun acc a => if navMatches a then sinsert (linkTarget base_site a) acc else acc)
          cands
      else cands

/-- The page loop of `get_full_contacts_for_site`: accumulates every page's
emails and phones into the running sets and ORs the blocked flags. -/
def crawlPages (fetchOf : String → FetchResult) :
    List String → List String × List String × Bool → List String × List String × Bool
  | [], acc => acc
  | page :: rest, (es, ps, b) =>
    let r := extract_contacts_from_page (fetchOf page)
    crawlPages fetchOf rest
      (r.1.foldl (fun l e => sinsert e l) es, r.2.1.foldl (fun l p => sinsert p l) ps,
       b || r.2.2)

/-- `get_full_contacts_for_site` from `app.py`: crawls every discovered page
and returns the union of all emails, the union of all phones, and whether any
page looked blocked. Fetches are supplied by `fetchOf`. -/
def get_full_contacts_for_site (base_site : String) (fetchOf : String → FetchResult) :
    List String × List String × Bool :=
  crawlPages fetchOf (discover_contact_like_pages base_site (fetchOf base_site)) ([], [], false)

/-! ### URL base resolution (`get_base_url`, netloc) -/

/-- Scheme characters accepted by `urllib.parse.urlparse` after the first
letter. -/
def isSchemeChar (c : Char) : Bool :=
  isAsciiAlpha c || isAsciiDigit c || c = '+' || c = '-' || c = '.'

/-- `urlparse` scheme splitting: `"scheme:rest"` when the part before the
first colon is a non-empty letter-initial run of scheme characters; the
scheme is lowercased. -/
def splitScheme (url : String) : Option (String × List Char) :=
  let cs := url.toList
  let pre := cs.takeWhile (· ≠ ':')
  match pre, cs.drop (pre.length + 1) with
  | [], _ => none
  | c :: pre2, rest =>
    if pre.length < cs.length && isAsciiAlpha c && (c :: pre2).all isSchemeChar then
      some (String.mk (pyLower (c :: pre2)), rest)
    else none

/-- The netloc of a scheme-relative part: present exactly when it starts
with `"//"`, extending to the next `/`, `?` or `#`. -/
def netlocFrom (rest : List Char) : List Char :=
  if rest.take 2 = ['/', '/'] then
    (rest.drop 2).takeWhile (fun c => c ≠ '/' && c ≠ '?' && c ≠ '#')
  else []

/-- `urlparse(url).netloc`. -/
def urlparseNetloc (url : String) : String :=
  match splitScheme url with
  | some r => String.mk (netlocFrom r.2)
  | none => String.mk (netlocFrom url.toList)

/-- `get_base_url` from `app.py`: scheme (default `https`) plus netloc,
retrying netloc extraction with `https://` prepended when absent; `none`
when no netloc can be found. -/
def get_base_url (url : String) : Option String :=
  let scheme := match splitScheme url with
    | some r => r.1
    | none => "https"
  let netloc0 := urlparseNetloc url
  let netloc := if netloc0 = "" then urlparseNetloc ("https://" ++ url) else netloc0
  if netloc = "" then none else some (scheme ++ "://" ++ netloc)

/-- Does a search-result URL survive the denylist: it has a base URL and
that base's netloc hits no denylist fragment. -/
def survivesDenylist (u : String) : Bool :=
  match get_base_url u with
  | none => false
  | some b => !(is_blacklisted_domain (urlparseNetloc b))

/-- The `chosen_base` selection loop of the main run: walk the search
results in provider order, skip those without a base URL or with a
denylisted netloc, and pick the first survivor's base. -/
def chooseBase : List String → Option String
  | [] => none
  | u :: rest =>
    match get_base_url u with
    | none => chooseBase rest
    | some base =>
      if is_blacklisted_domain (urlparseNetloc base) then chooseBase rest else some base

/-! ### Search backends -/

/-- The fields of the SerpAPI JSON payload that `search_with_serpapi` reads:
each result item contributes `r.get("link") or r.get("url")`, modelled as an
optional link (`none` for a missing or empty link, which Python's `if link:`
also skips). -/
structure SerpData where
  organic_results : List (Option String)
  top_results : List (Option String)
  related_questions : List (Option String)

/-- The URL list assembled by `search_with_serpapi` before deduplication:
organic results first, then the two diversification lists, each truncated to
`num_results` items. -/
def serpUrls (d : SerpData) (num_results : Nat) : List String :=
  (d.organic_results.take num_results).filterMap id
    ++ (d.top_results.take num_results).filterMap id
    ++ (d.related_questions.take num_results).filterMap id

/-- `search_with_serpapi` from `app.py`. Network, JSON parsing and HTTP
errors are the `Except` input; an empty API key short-circuits to `[]`. The
assembled URLs are deduplicated keeping first occurrences and truncated to
`num_results`. -/
def search_with_serpapi (key : String) (data : Except Unit SerpData)
    (num_results : Nat) : List String :=
  if key = "" then []
  else
    match data with
    | .error _ => []
    | .ok d => (dedupFirst (serpUrls d num_results)).take num_results

/-- The `seen`/`out` loop of `search_with_duckduckgo_html`: the break test
`len(out) >= num_results` runs after every element, including duplicates. -/
def ddgLoop (num : Nat) : List String → List String → List String
  | [], out => out
  | u :: rest, out =>
    let out' := if u ∈ out then out else out ++ [u]
    if num ≤ out'.length then out' else ddgLoop num rest out'

/-- `search_with_duckduckgo_html` from `app.py`. The link list scraped from
the results page (absolute hrefs plus decoded `uddg=` redirects, in document
order) is the `Except` input; any raised exception yields `[]`. -/
def search_with_duckduckgo_html (links : Except Unit (List String))
    (num_results : Nat) : List String :=
  match links with
  | .error _ => []
  | .ok ls => ddgLoop num_results ls []

/-! ### The per-company main-loop body

The run loop of `app.py` processes companies one at a time; everything each
iteration does under its `try` is modelled by `runCompany` over an explicit
per-company environment (the spreadsheet cell and the two effectful calls,
which may raise), and the `except` boundary by `processCompany`. -/

/-- A spreadsheet cell holding the company name: a string, or any non-string
value (NaN, numbers, …) for which `isinstance(company, str)` is false. -/
inductive Cell where
  | strVal (s : String) : Cell
  | nonStr : Cell

/-- The effectful context of one loop iteration: the company cell, the
outcome of `get_company_search_results`, and the outcome of
`get_full_contacts_for_site` on a chosen base. `Except Unit` models a
possibly-raised Python exception. -/
structure CompanyEnv where
  cell : Cell
  search : Except Unit (List String)
  contacts : String → Except Unit (List String × List String × Bool)

instance : Inhabited CompanyEnv :=
  ⟨⟨Cell.nonStr, Except.ok [], fun _ => Except.ok ([], [], false)⟩⟩

/-- One row of the results table: the four columns the loop writes. -/
structure RowOut where
  website : String
  emails : String
  phones : String
  status : String
deriving DecidableEq

/-- The row written when the per-company `try` block raises. -/
def errorRow : RowOut := ⟨"Error", "Error", "Error", "Error"⟩

/-- The row written for an empty, whitespace-only or non-string company
cell. -/
def skipRow : RowOut := ⟨"Not Provided", "Not Found", "Not Found", "Skipped"⟩

/-- The validation `isinstance(company, str) and company.strip()`. -/
def cellValid : Cell → Bool
  | .strVal s => pyStripS s ≠ ""
  | .nonStr => false

/-- `", ".join(sorted(set(l)))`. -/
def joinContacts (l : List String) : String :=
  String.intercalate ", " ((dedupFirst l).mergeSort (fun a b => decide (a ≤ b)))

/-- The body of one loop iteration up to its `except` boundary: invalid
cells are skipped without touching the network; otherwise search, pick the
first denylist-surviving base, and crawl it for contacts. -/
def runCompany (env : CompanyEnv) : Except Unit RowOut :=
  if cellValid env.cell then
    match env.search with
    | .error e => .error e
    | .ok results =>
      match chooseBase results with
      | none => .ok ⟨"Not Found", "Not Found", "Not Found", "Site Not Found"⟩
      | some base =>
        match env.contacts base with
        | .error e => .error e
        | .ok r =>
          .ok ⟨base,
               if r.1.isEmpty then "Not Found" else joinContacts r.1,
               if r.2.1.isEmpty then "Not Found" else joinContacts r.2.1,
               if r.1.isEmpty && r.2.1.isEmpty then "No Contacts" else "OK"⟩
  else .ok skipRow

/-- One loop iteration including the per-company `except` handler. -/
def processCompany (env : CompanyEnv) : RowOut :=
  match runCompany env with
  | .ok r => r
  | .error _ => errorRow

/-- The whole run: the chunked session-state loop writes row `i` from
company `i`'s environment, for every `i` in input order. -/
def runMain (envs : List CompanyEnv) : List RowOut := envs.map processCompany

/-! ### Spec-side definition for the domain-preference claim

The spec postulates a preference for emails whose domain part contains the
resolved primary domain; `app.py` has no corresponding code, so the
predicate below is stated from the spec's words purely to express that
claim. -/

/-- Modelled from the spec: "emails whose domain-part contains that domain" —
the domain part (text after the last `'@'`) contains `primary` as a
substring. `app.py` itself computes nothing of this kind. -/
def specEmailDomainMatches (e primary : String) : Bool :=
  containsSub (String.mk ((e.toList.reverse.takeWhile (· ≠ '@')).reverse)) primary

/-! ### Concrete instances used by counterexamples and witnesses -/

/-- A homepage whose only contact datum is an uppercase placeholder-domain
`mailto:` link. -/
def mailtoPage : Html := ⟨"", [⟨"mailto:Admin@Example.com", ""⟩], ""⟩

/-- A homepage with a short `tel:` link and a 16-digit run in its text. -/
def phonePage : Html := ⟨"", [⟨"tel:12", ""⟩], "1234567890123456"⟩

/-- A homepage with a lowercase `mailto:` link, for the email-sources
witness. -/
def salesPage : Html := ⟨"", [⟨"mailto:sales@acme.com", ""⟩], ""⟩

/-- A homepage whose text mixes an on-domain and an off-domain email. -/
def mixedEmailPage : Html := ⟨"", [], "info@acme.com contact@gmail.com"⟩

/-- Fetch environment for the domain-preference counterexample: the homepage
serves `mixedEmailPage`, every other page fails. -/
def c3FetchOf : String → FetchResult := fun u =>
  if u = "https://acme.com" then FetchResult.response 200 mixedEmailPage else FetchResult.exn

/-- A response body that trips the block-phrase detector. -/
def blockedPage : Html := ⟨"Our systems have detected Unusual Traffic from your network", [], ""⟩

/-- Twelve nav anchors whose text matches the contact keywords. -/
def manyNavAnchors : List Anchor :=
  [⟨"http://l01", "contact"⟩, ⟨"http://l02", "contact"⟩, ⟨"http://l03", "contact"⟩,
   ⟨"http://l04", "contact"⟩, ⟨"http://l05", "contact"⟩, ⟨"http://l06", "contact"⟩,
   ⟨"http://l07", "contact"⟩, ⟨"http://l08", "contact"⟩, ⟨"http://l09", "contact"⟩,
   ⟨"http://l10", "contact"⟩, ⟨"http://l11", "contact"⟩, ⟨"http://l12", "contact"⟩]

/-- A per-company environment with a whitespace-only company cell (and a
search that would raise if it were ever consulted). -/
def c5Env : CompanyEnv := ⟨Cell.strVal "   ", Except.error (), fun _ => Except.ok ([], [], false)⟩

/-- A per-company environment that completes normally. -/
def c6GoodEnv : CompanyEnv := ⟨Cell.strVal "Acme", Except.ok [], fun _ => Except.ok ([], [], false)⟩

/-- A per-company environment whose search call raises. -/
def c6BadEnv : CompanyEnv := ⟨Cell.strVal "Globex", Except.error (), fun _ => Except.ok ([], [], false)⟩

/-! ## Theorems -/

/-! ### Shared helper lemmas -/

theorem toList_mk (cs : List Char) : (String.mk cs).toList = cs := rfl

theorem mem_sinsert {x y : String} {l : List String} :
    x ∈ sinsert y l ↔ x = y ∨ x ∈ l := by
  unfold sinsert
  by_cases h : y ∈ l
  · simp only [if_pos h]
    constructor
    · exact Or.inr
    · rintro (rfl | hx)
      · exact h
      · exact hx
  · simp [if_neg h, List.mem_append, or_comm]

/-! ### Claim C7: block detection is a distinct signal -/

/-- Claim C7: a fetched page (status below 400) whose body contains a block
phrase makes `extract_contacts_from_page` return empty email and phone sets
with the blocked flag `true`, while a network exception, an error status, and
an ordinary no-block page all carry the flag `false` — so the blocked outcome
is distinguishable from a fetch failure and from a no-contacts page. -/
theorem C7_blocked_signal_distinct (st : Nat) (page : Html)
    (hst : st < 400) (hblock : page_has_block page.raw = true) :
    extract_contacts_from_page (.response st page) = ([], [], true) ∧
    extract_contacts_from_page .exn = ([], [], false) ∧
    (∀ st2 page2, 400 ≤ st2 →
      extract_contacts_from_page (.response st2 page2) = ([], [], false)) ∧
    (∀ st3 page3, st3 < 400 → page_has_block page3.raw = false →
      (extract_contacts_from_page (.response st3 page3)).2.2 = false) := by
  refine ⟨?_, rfl, ?_, ?_⟩
  · simp [extract_contacts_from_page, Nat.not_le.mpr hst, hblock]
  · intro st2 page2 h2
    simp [extract_contacts_from_page, h2]
  · intro st3 page3 h3 hb3
    simp [extract_contacts_from_page, Nat.not_le.mpr h3, hb3]

/-- Witness for C7 at a concrete blocked page. -/
theorem C7_witness :
    extract_contacts_from_page (.response 200 blockedPage) = ([], [], true) ∧
    extract_contacts_from_page .exn = ([], [], false) := by
  have h := C7_blocked_signal_distinct 200 blockedPage (by decide) (by decide)
  exact ⟨h.1, h.2.1⟩

/-! ### Claim C8: fetch failures are absorbed -/

/-- Claim C8: an HTTP status of 400 or above, and a raised network
exception, both yield `([], [], false)` — the not-fetched result with no
blocked signal. `extract_contacts_from_page` is a total function of the
fetch outcome, so no exception escapes it. -/
theorem C8_fetch_failure_absorbed (st : Nat) (page : Html) (hst : 400 ≤ st) :
    extract_contacts_from_page (.response st page) = ([], [], false) ∧
    extract_contacts_from_page .exn = ([], [], false) := by
  constructor
  · simp [extract_contacts_from_page, hst]
  · rfl

/-- Witness for C8 at a concrete 404 response. -/
theorem C8_witness :
    extract_contacts_from_page (.response 404 mixedEmailPage) = ([], [], false) :=
  (C8_fetch_failure_absorbed 404 mixedEmailPage (by decide)).1

/-! ### Claim C4: the denylist invariant -/

theorem chooseBase_eq_find (urls : List String) :
    chooseBase urls = (urls.find? survivesDenylist).bind get_base_url := by
  induction urls with
  | nil => rfl
  | cons u rest ih =>
    unfold chooseBase
    cases hgb : get_base_url u with
    | none =>
      have hs : survivesDenylist u = false := by simp [survivesDenylist, hgb]
      simp [List.find?, hs, ih]
    | some base =>
      cases hb : is_blacklisted_domain (urlparseNetloc base) with
      | false =>
        have hs : survivesDenylist u = true := by simp [survivesDenylist, hgb, hb]
        simp [List.find?, hs, hb, hgb]
      | true =>
        have hs : survivesDenylist u = false := by simp [survivesDenylist, hgb, hb]
        simp [List.find?, hs, hb, ih]

/-- Claim C4: every result row's `Website` is either one of the sentinel
strings (`"Not Provided"`, `"Not Found"`, `"Error"`) or the base URL of the
first search result surviving the denylist filter, in provider order — and
in that case its netloc hits no denylist fragment, so a denylisted candidate
is never chosen. -/
theorem C4_denylist_invariant (env : CompanyEnv) :
    (processCompany env).website = "Not Provided" ∨
    (processCompany env).website = "Not Found" ∨
    (processCompany env).website = "Error" ∨
    (∃ results u, env.search = .ok results ∧
      results.find? survivesDenylist = some u ∧
      get_base_url u = some (processCompany env).website ∧
      is_blacklisted_domain (urlparseNetloc (processCompany env).website) = false) := by
  cases hv : cellValid env.cell with
  | false =>
    have : processCompany env = skipRow := by simp [processCompany, runCompany, hv]
    rw [this]; left; rfl
  | true =>
    cases hs : env.search with
    | error e =>
      have : processCompany env = errorRow := by simp [processCompany, runCompany, hv, hs]
      rw [this]; right; right; left; rfl
    | ok results =>
      cases hcb : chooseBase results with
      | none =>
        have : processCompany env =
            ⟨"Not Found", "Not Found", "Not Found", "Site Not Found"⟩ := by
          simp [processCompany, runCompany, hv, hs, hcb]
        rw [this]; right; left; rfl
      | some base =>
        cases hc : env.contacts base with
        | error e =>
          have : processCompany env = errorRow := by
            simp [processCompany, runCompany, hv, hs, hcb, hc]
          rw [this]; right; right; left; rfl
        | ok r =>
          have hfind := chooseBase_eq_find results
          rw [hcb] at hfind
          cases hf : results.find? survivesDenylist with
          | none => rw [hf] at hfind; simp at hfind
          | some u =>
            rw [hf, Option.some_bind] at hfind
            have hsurv : survivesDenylist u = true := List.find?_some hf
            have hnb : is_blacklisted_domain (urlparseNetloc base) = false := by
              unfold survivesDenylist at hsurv
              rw [← hfind] at hsurv
              simpa using hsurv
            have hw : (processCompany env).website = base := by
              simp [processCompany, runCompany, hv, hs, hcb, hc]
            rw [hw]
            right; right; right
            exact ⟨results, u, hs ▸ rfl, hf, hfind.symm, hnb⟩

/-! ### Claim C5: skipped rows -/

/-- Claim C5 counterexample: for the whitespace-only company cell the row
status is `Skipped`, but the website and emails fields are the sentinel
strings `"Not Provided"` / `"Not Found"`, not empty values as the claim
states. -/
theorem C5_counterexample :
    (processCompany c5Env).status = "Skipped" ∧
    (processCompany c5Env).emails = "Not Found" ∧ (processCompany c5Env).emails ≠ "" ∧
    (processCompany c5Env).website = "Not Provided" ∧ (processCompany c5Env).website ≠ "" := by
  have h : processCompany c5Env = skipRow := by rfl
  rw [h]
  exact ⟨rfl, rfl, by decide, rfl, by decide⟩

/-- Claim C5 as amended: an empty, whitespace-only or non-string company
cell produces exactly the row `("Not Provided", "Not Found", "Not Found",
"Skipped")` — sentinel strings rather than empty fields — and the outcome is
independent of the search and contact-crawl environment, i.e. the pipeline
performs no search or fetch for such a row. -/
theorem C5_skipped (env : CompanyEnv) (h : cellValid env.cell = false) :
    processCompany env = skipRow ∧
    ∀ env2 : CompanyEnv, env2.cell = env.cell → processCompany env2 = processCompany env := by
  have h1 : processCompany env = skipRow := by
    simp [processCompany, runCompany, h]
  refine ⟨h1, fun env2 he => ?_⟩
  have h2 : cellValid env2.cell = false := by rw [he]; exact h
  rw [h1]
  simp [processCompany, runCompany, h2]

/-- Witness for C5 at the whitespace-only cell. -/
theorem C5_witness :
    cellValid c5Env.cell = false ∧ processCompany c5Env = skipRow :=
  ⟨by decide, (C5_skipped c5Env (by decide)).1⟩

/-! ### Claim C6: per-company error isolation -/

/-- Claim C6: when company `i`'s iteration raises, row `i` is the `Error`
row, the output still has one row per input company, and every other row is
exactly the one computed from its own company's environment — one failure
neither aborts the batch nor alters other rows. -/
theorem C6_error_isolation (envs : List CompanyEnv) (i : Nat) (env : CompanyEnv)
    (hi : envs[i]? = some env) (hfail : runCompany env = .error ()) :
    (runMain envs).length = envs.length ∧
    (runMain envs)[i]? = some errorRow ∧
    ∀ j, j ≠ i → (runMain envs)[j]? = (envs[j]?).map processCompany := by
  refine ⟨List.length_map _ _, ?_, fun j _ => ?_⟩
  · rw [runMain, List.getElem?_map, hi]
    simp [processCompany, hfail]
  · rw [runMain, List.getElem?_map]

/-- Witness for C6: two companies, the second one's search raises; the first
row is computed normally, the second is the `Error` row, both rows exist. -/
theorem C6_witness :
    (runMain [c6GoodEnv, c6BadEnv]).length = 2 ∧
    (runMain [c6GoodEnv, c6BadEnv])[1]? = some errorRow ∧
    (runMain [c6GoodEnv, c6BadEnv])[0]? = some (processCompany c6GoodEnv) := by
  have h := C6_error_isolation [c6GoodEnv, c6BadEnv] 1 c6BadEnv rfl rfl
  refine ⟨h.1, h.2.1, ?_⟩
  rw [h.2.2 0 (by decide)]
  rfl

/-! ### Claim C10: search backend output discipline -/

theorem dedupFirstAux_sublist (l : List String) :
    ∀ seen, (dedupFirstAux seen l).Sublist l := by
  induction l with
  | nil => intro seen; exact List.Sublist.refl []
  | cons u rest ih =>
    intro seen
    unfold dedupFirstAux
    by_cases h : u ∈ seen
    · rw [if_pos h]
      exact (ih seen).cons u
    · rw [if_neg h]
      exact (ih (u :: seen)).cons₂ u

theorem mem_dedupFirstAux_not_seen {x : String} :
    ∀ (l seen : List String), x ∈ dedupFirstAux seen l → x ∉ seen := by
  intro l
  induction l with
  | nil => intro seen h; simp [dedupFirstAux] at h
  | cons u rest ih =>
    intro seen h
    unfold dedupFirstAux at h
    by_cases hu : u ∈ seen
    · rw [if_pos hu] at h
      exact ih seen h
    · rw [if_neg hu] at h
      rcases List.mem_cons.mp h with rfl | h2
      · exact hu
      · intro hxs
        exact ih (u :: seen) h2 (List.mem_cons_of_mem u hxs)

theorem dedupFirstAux_nodup : ∀ (l seen : List String), (dedupFirstAux seen l).Nodup := by
  intro l
  induction l with
  | nil => intro seen; exact List.nodup_nil
  | cons u rest ih =>
    intro seen
    unfold dedupFirstAux
    by_cases hu : u ∈ seen
    · rw [if_pos hu]; exact ih seen
    · rw [if_neg hu]
      refine List.nodup_cons.mpr ⟨?_, ih (u :: seen)⟩
      intro hmem
      exact mem_dedupFirstAux_not_seen rest (u :: seen) hmem (List.mem_cons_self u seen)

theorem dedupFirstAux_congr :
    ∀ (l s1 s2 : List String), (∀ x, x ∈ s1 ↔ x ∈ s2) →
      dedupFirstAux s1 l = dedupFirstAux s2 l := by
  intro l
  induction l with
  | nil => intro s1 s2 _; rfl
  | cons u rest ih =>
    intro s1 s2 hiff
    unfold dedupFirstAux
    by_cases hu : u ∈ s1
    · rw [if_pos hu, if_pos ((hiff u).mp hu)]
      exact ih s1 s2 hiff
    · rw [if_neg hu, if_neg (fun h2 => hu ((hiff u).mpr h2))]
      refine congrArg _ ?_
      refine ih (u :: s1) (u :: s2) (fun x => ?_)
      simp only [List.mem_cons]
      exact or_congr Iff.rfl (hiff x)

/-- The DuckDuckGo dedup/truncate loop, characterised: while the accumulated
output is shorter than the bound, the loop returns the accumulator followed
by the unseen first occurrences, truncated to the remaining room. -/
theorem ddgLoop_eq (num : Nat) :
    ∀ (links out : List String), out.length < num →
      ddgLoop num links out = out ++ (dedupFirstAux out links).take (num - out.length) := by
  intro links
  induction links with
  | nil => intro out h; simp [ddgLoop, dedupFirstAux]
  | cons u rest ih =>
    intro out h
    unfold ddgLoop dedupFirstAux
    by_cases hm : u ∈ out
    · rw [if_pos hm, if_pos hm, if_neg (by omega)]
      exact ih out h
    · rw [if_neg hm, if_neg hm]
      by_cases hb : num ≤ (out ++ [u]).length
      · rw [if_pos hb]
        have hlen : (out ++ [u]).length = out.length + 1 := by simp
        have hnum : num - out.length = 1 := by omega
        rw [hnum, List.take_succ_cons, List.take_zero]
      · rw [if_neg hb]
        have hlt : (out ++ [u]).length < num := by omega
        rw [ih (out ++ [u]) hlt]
        have hseen : dedupFirstAux (out ++ [u]) rest = dedupFirstAux (u :: out) rest := by
          refine dedupFirstAux_congr rest (out ++ [u]) (u :: out) (fun x => ?_)
          simp [List.mem_append, List.mem_cons, or_comm]
        rw [hseen]
        have hroom : num - out.length = (num - (out.length + 1)) + 1 := by
          simp at hb
          omega
        rw [hroom, List.take_succ_cons]
        simp

/-- Claim C10 counterexample: with `max_results = 0` the DuckDuckGo loop
still returns the first scraped link, because the break test
`len(out) >= num_results` only runs after an element has been appended — so
the returned list is longer than the bound. -/
theorem C10_counterexample :
    search_with_duckduckgo_html (.ok ["http://a.com"]) 0 = ["http://a.com"] ∧
    ¬ ((search_with_duckduckgo_html (.ok ["http://a.com"]) 0).length ≤ 0) := by
  constructor
  · rfl
  · decide

/-- Claim C10 as amended: `search_with_serpapi` returns, for every bound, a
duplicate-free list that preserves first-occurrence provider order with
length at most `max_results`, and `[]` on provider failure;
`search_with_duckduckgo_html` returns `[]` on failure and satisfies the same
discipline for every bound `max_results ≥ 1` (at bound 0 it can still return
one element, as the counterexample shows). -/
theorem C10_backend_discipline :
    (∀ (key : String) (data : Except Unit SerpData) (num : Nat),
      (search_with_serpapi key data num).Nodup ∧
      (search_with_serpapi key data num).length ≤ num ∧
      (∀ d, data = .ok d → (search_with_serpapi key data num).Sublist (serpUrls d num)) ∧
      (data = .error () → search_with_serpapi key data num = [])) ∧
    (∀ (ls : List String) (num : Nat), 1 ≤ num →
      (search_with_duckduckgo_html (.ok ls) num).Nodup ∧
      (search_with_duckduckgo_html (.ok ls) num).length ≤ num ∧
      (search_with_duckduckgo_html (.ok ls) num).Sublist ls) ∧
    (∀ num, search_with_duckduckgo_html (.error ()) num = []) := by
  refine ⟨?_, ?_, fun _ => rfl⟩
  · intro key data num
    unfold search_with_serpapi
    by_cases hk : key = ""
    · rw [if_pos hk]
      exact ⟨List.nodup_nil, by simp, fun d _ => List.nil_sublist _, fun _ => rfl⟩
    · rw [if_neg hk]
      cases data with
      | error e =>
        exact ⟨List.nodup_nil, by simp, by simp, fun _ => rfl⟩
      | ok d =>
        refine ⟨?_, List.length_take_le _ _, ?_, by simp⟩
        · exact (List.take_sublist _ _).nodup (dedupFirstAux_nodup _ [])
        · intro d2 hd2
          cases hd2
          exact (List.take_sublist _ _).trans (dedupFirstAux_sublist _ [])
  · intro ls num hnum
    have hunf : search_with_duckduckgo_html (.ok ls) num = ddgLoop num ls [] := rfl
    rw [hunf, ddgLoop_eq num ls [] (by simpa using hnum)]
    simp only [List.nil_append, Nat.sub_zero]
    refine ⟨(List.take_sublist _ _).nodup (dedupFirstAux_nodup _ []), ?_, ?_⟩
    · exact List.length_take_le _ _
    · exact (List.take_sublist _ _).trans (dedupFirstAux_sublist _ [])

/-- Witness for C10 at a concrete link list with a duplicate and bound 2. -/
theorem C10_witness :
    (1 : Nat) ≤ 2 ∧
    (search_with_duckduckgo_html (.ok ["http://a", "http://a", "http://b"]) 2).Nodup ∧
    (search_with_duckduckgo_html (.ok ["http://a", "http://a", "http://b"]) 2).length ≤ 2 := by
  have h := C10_backend_discipline.2.1 ["http://a", "http://a", "http://b"] 2 (by decide)
  exact ⟨by decide, h.1, h.2.1⟩

/-! ### Claim C9: fetch-target discovery -/

theorem mem_foldl_sinsert :
    ∀ (l acc : List String) (x : String),
      x ∈ l.foldl (fun a u => sinsert u a) acc ↔ x ∈ acc ∨ x ∈ l := by
  intro l
  induction l with
  | nil => intro acc x; simp
  | cons u rest ih =>
    intro acc x
    rw [List.foldl_cons, ih (sinsert u acc) x, mem_sinsert]
    simp only [List.mem_cons]
    tauto

theorem mem_foldl_nav (base : String) :
    ∀ (ans : List Anchor) (acc : List String) (x : String),
      x ∈ ans.foldl
        (fun acc a => if navMatches a then sinsert (linkTarget base a) acc else acc) acc ↔
      x ∈ acc ∨ ∃ a ∈ ans, navMatches a = true ∧ x = linkTarget base a := by
  intro ans
  induction ans with
  | nil => intro acc x; simp
  | cons a rest ih =>
    intro acc x
    rw [List.foldl_cons]
    by_cases hnav : navMatches a
    · rw [if_pos hnav, ih (sinsert (linkTarget base a) acc) x, mem_sinsert]
      simp only [List.mem_cons]
      constructor
      · rintro ((rfl | hacc) | ⟨a2, ha2, hn2, rfl⟩)
        · exact Or.inr ⟨a, Or.inl rfl, hnav, rfl⟩
        · exact Or.inl hacc
        · exact Or.inr ⟨a2, Or.inr ha2, hn2, rfl⟩
      · rintro (hacc | ⟨a2, (rfl | ha2), hn2, rfl⟩)
        · exact Or.inl (Or.inr hacc)
        · exact Or.inl (Or.inl rfl)
        · exact Or.inr ⟨a2, ha2, hn2, rfl⟩
    · rw [if_neg hnav, ih acc x]
      simp only [List.mem_cons]
      constructor
      · rintro (hacc | ⟨a2, ha2, hn2, rfl⟩)
        · exact Or.inl hacc
        · exact Or.inr ⟨a2, Or.inr ha2, hn2, rfl⟩
      · rintro (hacc | ⟨a2, (rfl | ha2), hn2, rfl⟩)
        · exact Or.inl hacc
        · exact absurd hn2 (by simpa using hnav)
        · exact Or.inr ⟨a2, ha2, hn2, rfl⟩

/-- Claim C9 counterexample: a homepage with twelve matching nav links makes
`discover_contact_like_pages` produce nineteen fetch targets — the claimed
small fixed maximum (on the order of six pages) does not exist, because the
nav-link scan adds every matching link without a cap. -/
theorem C9_counterexample :
    (discover_contact_like_pages "https://acme.com"
        (.response 200 ⟨"", manyNavAnchors, ""⟩)).length = 19 ∧
    ¬ ((discover_contact_like_pages "https://acme.com"
        (.response 200 ⟨"", manyNavAnchors, ""⟩)).length ≤ 6) := by
  constructor
  · rfl
  · decide

/-- Claim C9 as amended: for a non-empty base site, the fetch targets are
exactly the homepage plus the six fixed contact-like paths, together with —
when the homepage fetch succeeded below status 400 and was not blocked —
every homepage link whose anchor text contains "contact"/"support"/"about";
there is no cap on how many such links are added. -/
theorem C9_fetch_targets (base : String) (fetch : FetchResult) (hbase : base ≠ "")
    (u : String) :
    u ∈ discover_contact_like_pages base fetch ↔
      u ∈ fixedCandidates base ∨
      ∃ st page, fetch = .response st page ∧ st < 400 ∧
        page_has_block page.raw = false ∧
        ∃ a ∈ page.anchors, navMatches a = true ∧ u = linkTarget base a := by
  cases fetch with
  | exn =>
    simp only [discover_contact_like_pages, if_neg hbase]
    rw [mem_foldl_sinsert]
    simp
  | response st page =>
    simp only [discover_contact_like_pages, if_neg hbase]
    by_cases hc : (decide (st < 400) && !page_has_block page.raw) = true
    · rw [if_pos hc, mem_foldl_nav, mem_foldl_sinsert]
      obtain ⟨h4, hb⟩ : st < 400 ∧ page_has_block page.raw = false := by
        simpa using hc
      constructor
      · rintro ((h | h) | ⟨a, ha, hn, rfl⟩)
        · simp at h
        · exact Or.inl h
        · exact Or.inr ⟨st, page, rfl, h4, hb, a, ha, hn, rfl⟩
      · rintro (h | ⟨st2, page2, heq, h42, hb2, a, ha, hn, rfl⟩)
        · exact Or.inl (Or.inr h)
        · cases heq
          exact Or.inr ⟨a, ha, hn, rfl⟩
    · rw [if_neg hc, mem_foldl_sinsert]
      constructor
      · rintro (h | h)
        · simp at h
        · exact Or.inl h
      · rintro (h | ⟨st2, page2, heq, h42, hb2, _, _, _, _⟩)
        · exact Or.inr h
        · cases heq
          exact absurd (by simp [h42, hb2] : (decide (st < 400) && !page_has_block page.raw) = true) hc

/-- Witness for C9: the homepage itself is among the fetch targets of a
failed-fetch discovery for a concrete base site. -/
theorem C9_witness :
    ("https://acme.com" : String) ≠ "" ∧
    "https://acme.com" ∈ discover_contact_like_pages "https://acme.com" .exn := by
  refine ⟨by decide, ?_⟩
  exact (C9_fetch_targets "https://acme.com" .exn (by decide) "https://acme.com").mpr
    (Or.inl (by decide))

/-! ### Claim C3: no domain-preference filtering exists -/

theorem mem_crawlPages_emails (fetchOf : String → FetchResult) :
    ∀ (pages : List String) (es ps : List String) (b : Bool) (x : String),
      x ∈ (crawlPages fetchOf pages (es, ps, b)).1 ↔
        x ∈ es ∨ ∃ page ∈ pages, x ∈ (extract_contacts_from_page (fetchOf page)).1 := by
  intro pages
  induction pages with
  | nil => intro es ps b x; simp [crawlPages]
  | cons page rest ih =>
    intro es ps b x
    rw [crawlPages]
    rw [ih _ _ _ x, mem_foldl_sinsert]
    simp only [List.mem_cons]
    constructor
    · rintro ((h | h) | ⟨p2, hp2, hx2⟩)
      · exact Or.inl h
      · exact Or.inr ⟨page, Or.inl rfl, h⟩
      · exact Or.inr ⟨p2, Or.inr hp2, hx2⟩
    · rintro (h | ⟨p2, (rfl | hp2), hx2⟩)
      · exact Or.inl (Or.inl h)
      · exact Or.inl (Or.inr hx2)
      · exact Or.inr ⟨p2, hp2, hx2⟩

/-- Claim C3 counterexample: crawling `https://acme.com` (primary domain
`acme.com`) over a homepage containing one on-domain and one off-domain
email returns both — although a domain-matching email exists, the off-domain
`contact@gmail.com` is not filtered out, contradicting the claimed
domain-preference invariant. -/
theorem C3_counterexample :
    "info@acme.com" ∈ (get_full_contacts_for_site "https://acme.com" c3FetchOf).1 ∧
    "contact@gmail.com" ∈ (get_full_contacts_for_site "https://acme.com" c3FetchOf).1 ∧
    specEmailDomainMatches "info@acme.com" "acme.com" = true ∧
    specEmailDomainMatches "contact@gmail.com" "acme.com" = false := by
  refine ⟨?_, ?_, by decide, by decide⟩
  · have h : (get_full_contacts_for_site "https://acme.com" c3FetchOf).1 =
        ["info@acme.com", "contact@gmail.com"] := by rfl
    rw [h]; decide
  · have h : (get_full_contacts_for_site "https://acme.com" c3FetchOf).1 =
        ["info@acme.com", "contact@gmail.com"] := by rfl
    rw [h]; decide

/-- Claim C3 as amended: `get_full_contacts_for_site` performs no
domain-based filtering at all — its email set is exactly the union of the
emails extracted from every discovered page, whether or not any email's
domain part contains the primary domain. -/
theorem C3_union_no_filter (base : String) (fetchOf : String → FetchResult) (e : String) :
    e ∈ (get_full_contacts_for_site base fetchOf).1 ↔
      ∃ page ∈ discover_contact_like_pages base (fetchOf base),
        e ∈ (extract_contacts_from_page (fetchOf page)).1 := by
  unfold get_full_contacts_for_site
  rw [mem_crawlPages_emails]
  simp

/-! ### Claim C2: phone digit-count discipline -/

/-- The successful-fetch equation of `extract_contacts_from_page`. -/
theorem extract_ok_eq (st : Nat) (page : Html) (h4 : ¬ 400 ≤ st)
    (hb : page_has_block page.raw = false) :
    extract_contacts_from_page (.response st page) =
      (collectTextEmails (emailFindAll page.text.toList)
         (collectAnchorContacts page.anchors ([], [])).1,
       collectTextPhones (phoneFindAll page.text.toList)
         (collectAnchorContacts page.anchors ([], [])).2,
       false) := by
  simp only [extract_contacts_from_page]
  rw [if_neg h4, if_neg (by simp [hb])]

theorem mem_collectAnchorContacts_phones :
    ∀ (ans : List Anchor) (es ps : List String) (x : String),
      x ∈ (collectAnchorContacts ans (es, ps)).2 →
        x ∈ ps ∨ ∃ a ∈ ans, startsWithS a.href "tel:" = true ∧ x = telTarget a.href := by
  intro ans
  induction ans with
  | nil => intro es ps x h; exact Or.inl h
  | cons a rest ih =>
    intro es ps x h
    simp only [collectAnchorContacts] at h
    by_cases hm : startsWithS a.href "mailto:" = true
    · rw [if_pos hm] at h
      rcases ih _ _ x h with h2 | ⟨a2, ha2, ht2, hx2⟩
      · exact Or.inl h2
      · exact Or.inr ⟨a2, List.mem_cons_of_mem a ha2, ht2, hx2⟩
    · rw [if_neg hm] at h
      by_cases ht : startsWithS a.href "tel:" = true
      · rw [if_pos ht] at h
        rcases ih _ _ x h with h2 | ⟨a2, ha2, ht2, hx2⟩
        · by_cases htel : telTarget a.href ≠ ""
          · rw [if_pos htel] at h2
            rcases mem_sinsert.mp h2 with rfl | h3
            · exact Or.inr ⟨a, List.mem_cons_self a rest, ht, rfl⟩
            · exact Or.inl h3
          · rw [if_neg htel] at h2
            exact Or.inl h2
        · exact Or.inr ⟨a2, List.mem_cons_of_mem a ha2, ht2, hx2⟩
      · rw [if_neg ht] at h
        rcases ih _ _ x h with h2 | ⟨a2, ha2, ht2, hx2⟩
        · exact Or.inl h2
        · exact Or.inr ⟨a2, List.mem_cons_of_mem a ha2, ht2, hx2⟩

theorem mem_collectTextPhones :
    ∀ (ms : List (List Char)) (ps : List String) (x : String),
      x ∈ collectTextPhones ms ps →
        x ∈ ps ∨ 8 ≤ (x.toList.filter Char.isDigit).length := by
  intro ms
  induction ms with
  | nil => intro ps x h; exact Or.inl h
  | cons m rest ih =>
    intro ps x h
    simp only [collectTextPhones] at h
    rcases ih _ x h with h2 | h2
    · by_cases hc : 8 ≤ ((String.mk (pyStrip m)).toList.filter Char.isDigit).length
      · rw [if_pos hc] at h2
        rcases mem_sinsert.mp h2 with rfl | h3
        · exact Or.inr hc
        · exact Or.inl h3
      · rw [if_neg hc] at h2
        exact Or.inl h2
    · exact Or.inr h2

/-- Claim C2 counterexample: on a page with a `tel:12` link and a 16-digit
run in its text, the phone set contains `"12"` (digit count 2, below 8 — tel
targets are never validated) and `"1234567890123456"` (digit count 16, above
15 — the code only checks a lower bound of 8). -/
theorem C2_counterexample :
    (extract_contacts_from_page (.response 200 phonePage)).2.1 =
      ["12", "1234567890123456"] ∧
    (("12" : String).toList.filter Char.isDigit).length < 8 ∧
    15 < (("1234567890123456" : String).toList.filter Char.isDigit).length := by
  refine ⟨rfl, by decide, by decide⟩

/-- Claim C2 as amended: every member of the phone set of a fetched page
either is a `tel:` link target — added with no validation of any kind — or
is a regex match whose digit-only form has length at least 8; no upper bound
is enforced. -/
theorem C2_phone_sources (st : Nat) (page : Html) (p : String)
    (hp : p ∈ (extract_contacts_from_page (.response st page)).2.1) :
    (∃ a ∈ page.anchors, startsWithS a.href "tel:" = true ∧ p = telTarget a.href) ∨
    8 ≤ (p.toList.filter Char.isDigit).length := by
  by_cases h4 : 400 ≤ st
  · simp [extract_contacts_from_page, h4] at hp
  · by_cases hb : page_has_block page.raw = true
    · simp [extract_contacts_from_page, h4, hb] at hp
    · rw [extract_ok_eq st page h4 (by simpa using hb)] at hp
      rcases mem_collectTextPhones _ _ p hp with h | h
      · rcases mem_collectAnchorContacts_phones _ _ _ p h with h2 | h2
        · simp at h2
        · exact Or.inl h2
      · exact Or.inr h

/-- Witness for C2: the unvalidated `tel:12` target of the concrete page. -/
theorem C2_witness :
    ("12" : String) ∈ (extract_contacts_from_page (.response 200 phonePage)).2.1 ∧
    ((∃ a ∈ phonePage.anchors, startsWithS a.href "tel:" = true ∧
        ("12" : String) = telTarget a.href) ∨
      8 ≤ (("12" : String).toList.filter Char.isDigit).length) := by
  refine ⟨by decide, C2_phone_sources 200 phonePage "12" (by decide)⟩

/-! ### Claim C1: email sources and normalization -/

theorem pySpace_not_local {c : Char} (h : isPySpace c = true) : isLocalChar c = false := by
  unfold isPySpace at h
  simp only [Bool.or_eq_true, decide_eq_true_eq] at h
  rcases h with ((((h | h) | h) | h) | h) | h <;> subst h <;> decide

theorem pySpace_not_alpha {c : Char} (h : isPySpace c = true) : isAsciiAlpha c = false := by
  unfold isPySpace at h
  simp only [Bool.or_eq_true, decide_eq_true_eq] at h
  rcases h with ((((h | h) | h) | h) | h) | h <;> subst h <;> decide

theorem takeWhile_all (p : Char → Bool) : ∀ l : List Char, (l.takeWhile p).all p = true := by
  intro l
  induction l with
  | nil => rfl
  | cons c rest ih =>
    rw [List.takeWhile_cons]
    by_cases hp : p c = true
    · rw [if_pos hp]
      simp [hp, ih]
    · rw [if_neg hp]
      rfl

theorem drop_eq_cons_of_headD {l : List Char} {n : Nat} {c : Char} (hne : c ≠ ' ')
    (h : (l.drop n).headD ' ' = c) :
    l.drop n = c :: l.drop (n + 1) := by
  cases hd : l.drop n with
  | nil =>
    rw [hd] at h
    exact absurd h.symm hne
  | cons c2 tl =>
    rw [hd] at h
    simp only [List.headD_cons] at h
    subst h
    have htl := List.tail_drop l n
    rw [hd] at htl
    simp only [List.tail_cons] at htl
    rw [htl]

theorem domSplitGo_sound (dom : List Char) :
    ∀ k i, domSplitGo dom k = some i →
      1 ≤ i ∧ (dom.drop i).headD ' ' = '.' ∧
        2 ≤ ((dom.drop (i + 1)).takeWhile isAsciiAlpha).length := by
  intro k
  induction k with
  | zero => intro i h; simp [domSplitGo] at h
  | succ k ih =>
    intro i h
    rw [domSplitGo] at h
    by_cases hc : (dom.drop (k + 1)).headD ' ' = '.' ∧
        2 ≤ ((dom.drop (k + 2)).takeWhile isAsciiAlpha).length
    · rw [if_pos hc] at h
      cases h
      exact ⟨by omega, hc.1, hc.2⟩
    · rw [if_neg hc] at h
      exact ih i h

theorem emailMatchAt_sound {cs m rest : List Char} (h : emailMatchAt cs = some (m, rest)) :
    ∃ l d t : List Char,
      m = l ++ '@' :: (d ++ '.' :: t) ∧
      l ≠ [] ∧ l.all isLocalChar = true ∧
      d ≠ [] ∧ d.all isDomainChar = true ∧
      t.all isAsciiAlpha = true ∧ 2 ≤ t.length := by
  simp only [emailMatchAt] at h
  split at h
  · cases h
  next hemp =>
    split at h
    · split at h
      · next i heq =>
        simp only [Option.some.injEq, Prod.mk.injEq] at h
        obtain ⟨hm, -⟩ := h
        set loc := List.takeWhile isLocalChar cs with hloc
        set dom := List.takeWhile isDomainChar (cs.drop (loc.length + 1)) with hdomdef
        obtain ⟨hge, hdot, hlen⟩ := domSplitGo_sound dom dom.length i heq
        set t := List.takeWhile isAsciiAlpha (dom.drop (i + 1)) with htdef
        refine ⟨loc, dom.take i, t, hm.symm, ?_, ?_, ?_, ?_, ?_, hlen⟩
        · intro hnil
          rw [hnil] at hemp
          exact hemp rfl
        · exact hloc ▸ takeWhile_all isLocalChar cs
        · intro hnil
          rcases List.take_eq_nil_iff.mp hnil with h0 | hdnil
          · omega
          · rw [hdnil] at hdot
            simp at hdot
        · refine List.all_eq_true.mpr (fun x hx => ?_)
          exact List.all_eq_true.mp (hdomdef ▸ takeWhile_all isDomainChar _) x
            (List.take_subset i dom hx)
        · exact htdef ▸ takeWhile_all isAsciiAlpha _
      · cases h
    · cases h

theorem emailFindAllGo_sound :
    ∀ (fuel : Nat) (cs m : List Char), m ∈ emailFindAllGo fuel cs →
      ∃ l d t : List Char,
        m = l ++ '@' :: (d ++ '.' :: t) ∧
        l ≠ [] ∧ l.all isLocalChar = true ∧
        d ≠ [] ∧ d.all isDomainChar = true ∧
        t.all isAsciiAlpha = true ∧ 2 ≤ t.length := by
  intro fuel
  induction fuel with
  | zero => intro cs m h; simp [emailFindAllGo] at h
  | succ fuel ih =>
    intro cs m h
    cases cs with
    | nil => simp [emailFindAllGo] at h
    | cons c cs2 =>
      rw [emailFindAllGo] at h
      cases hma : emailMatchAt (c :: cs2) with
      | none =>
        rw [hma] at h
        exact ih cs2 m h
      | some pr =>
        obtain ⟨m1, rest1⟩ := pr
        rw [hma] at h
        rcases List.mem_cons.mp h with rfl | h2
        · exact emailMatchAt_sound hma
        · exact ih rest1 m h2

theorem pyStrip_id (c x : Char) (mid : List Char)
    (hc : isPySpace c = false) (hx : isPySpace x = false) :
    pyStrip (c :: (mid ++ [x])) = c :: (mid ++ [x]) := by
  unfold pyStrip
  rw [List.dropWhile_cons, if_neg (by simp [hc])]
  have hrev : (c :: (mid ++ [x])).reverse = x :: (mid.reverse ++ [c]) := by simp
  rw [hrev, List.dropWhile_cons, if_neg (by simp [hx])]
  simp

theorem pyStrip_email_match (l d t : List Char) (hl : l ≠ [])
    (hla : l.all isLocalChar = true) (hta : t.all isAsciiAlpha = true) (htl : 2 ≤ t.length) :
    pyStrip (l ++ '@' :: (d ++ '.' :: t)) = l ++ '@' :: (d ++ '.' :: t) := by
  obtain ⟨c, l2, rfl⟩ : ∃ c l2, l = c :: l2 := by
    cases l with
    | nil => exact absurd rfl hl
    | cons c l2 => exact ⟨c, l2, rfl⟩
  rcases List.eq_nil_or_concat' t with rfl | ⟨t2, x, rfl⟩
  · simp at htl
  · have hcl : isLocalChar c = true :=
      List.all_eq_true.mp hla c (List.mem_cons_self c l2)
    have hc : isPySpace c = false := by
      cases hsp : isPySpace c
      · rfl
      · rw [pySpace_not_local hsp] at hcl; cases hcl
    have hxa : isAsciiAlpha x = true := List.all_eq_true.mp hta x (by simp)
    have hx : isPySpace x = false := by
      cases hsp : isPySpace x
      · rfl
      · rw [pySpace_not_alpha hsp] at hxa; cases hxa
    have hform : (c :: l2) ++ '@' :: (d ++ '.' :: (t2 ++ [x]))
        = c :: ((l2 ++ '@' :: (d ++ '.' :: t2)) ++ [x]) := by simp
    rw [hform, pyStrip_id c x _ hc hx]

theorem mem_collectAnchorContacts_emails :
    ∀ (ans : List Anchor) (es ps : List String) (x : String),
      x ∈ (collectAnchorContacts ans (es, ps)).1 →
        x ∈ es ∨ ∃ a ∈ ans, startsWithS a.href "mailto:" = true ∧ x = mailtoTarget a.href := by
  intro ans
  induction ans with
  | nil => intro es ps x h; exact Or.inl h
  | cons a rest ih =>
    intro es ps x h
    simp only [collectAnchorContacts] at h
    by_cases hm : startsWithS a.href "mailto:" = true
    · rw [if_pos hm] at h
      rcases ih _ _ x h with h2 | ⟨a2, ha2, ht2, hx2⟩
      · by_cases hmail : mailtoTarget a.href ≠ ""
        · rw [if_pos hmail] at h2
          rcases mem_sinsert.mp h2 with rfl | h3
          · exact Or.inr ⟨a, List.mem_cons_self a rest, hm, rfl⟩
          · exact Or.inl h3
        · rw [if_neg hmail] at h2
          exact Or.inl h2
      · exact Or.inr ⟨a2, List.mem_cons_of_mem a ha2, ht2, hx2⟩
    · rw [if_neg hm] at h
      by_cases ht : startsWithS a.href "tel:" = true
      · rw [if_pos ht] at h
        rcases ih _ _ x h with h2 | ⟨a2, ha2, ht2, hx2⟩
        · exact Or.inl h2
        · exact Or.inr ⟨a2, List.mem_cons_of_mem a ha2, ht2, hx2⟩
      · rw [if_neg ht] at h
        rcases ih _ _ x h with h2 | ⟨a2, ha2, ht2, hx2⟩
        · exact Or.inl h2
        · exact Or.inr ⟨a2, List.mem_cons_of_mem a ha2, ht2, hx2⟩

theorem mem_collectTextEmails :
    ∀ (ms : List (List Char)) (es : List String) (x : String),
      x ∈ collectTextEmails ms es →
        x ∈ es ∨ ∃ m ∈ ms, x = String.mk (pyStrip m) ∧ 6 ≤ x.length ∧
          hasPlaceholderSuffix x = false := by
  intro ms
  induction ms with
  | nil => intro es x h; exact Or.inl h
  | cons m rest ih =>
    intro es x h
    simp only [collectTextEmails] at h
    rcases ih _ x h with h2 | ⟨m2, hm2, hx2, hl2, hp2⟩
    · by_cases hc : (decide (6 ≤ (String.mk (pyStrip m)).length)
          && !hasPlaceholderSuffix (String.mk (pyStrip m))) = true
      · rw [if_pos hc] at h2
        simp only [Bool.and_eq_true, decide_eq_true_eq, Bool.not_eq_true'] at hc
        rcases mem_sinsert.mp h2 with rfl | h3
        · exact Or.inr ⟨m, List.mem_cons_self m rest, rfl, hc.1, hc.2⟩
        · exact Or.inl h3
      · rw [if_neg hc] at h2
        exact Or.inl h2
    · exact Or.inr ⟨m2, List.mem_cons_of_mem m hm2, hx2, hl2, hp2⟩

/-- Claim C1 counterexample: the `mailto:Admin@Example.com` link target is
added verbatim — the returned email set contains `"Admin@Example.com"`,
which is not lowercase and whose domain is the placeholder `example.com`. -/
theorem C1_counterexample :
    (extract_contacts_from_page (.response 200 mailtoPage)).1 = ["Admin@Example.com"] ∧
    pyLowerS "Admin@Example.com" ≠ "Admin@Example.com" ∧
    hasPlaceholderSuffix "Admin@Example.com" = true := by
  refine ⟨rfl, by decide, by decide⟩

/-- Claim C1 as amended: every member of the email set of a fetched page
either is a `mailto:` link target — added verbatim with no syntactic check,
no lowercasing and no placeholder filtering — or is a free-text regex match:
it then matches the email pattern, has length at least 6 and its lowercased
form does not end in a placeholder domain, but it is kept in its original
case rather than lowercased. -/
theorem C1_email_sources (st : Nat) (page : Html) (e : String)
    (he : e ∈ (extract_contacts_from_page (.response st page)).1) :
    (∃ a ∈ page.anchors, startsWithS a.href "mailto:" = true ∧ e = mailtoTarget a.href) ∨
    (MatchesEmail e ∧ 6 ≤ e.length ∧ hasPlaceholderSuffix e = false) := by
  by_cases h4 : 400 ≤ st
  · simp [extract_contacts_from_page, h4] at he
  · by_cases hb : page_has_block page.raw = true
    · simp [extract_contacts_from_page, h4, hb] at he
    · rw [extract_ok_eq st page h4 (by simpa using hb)] at he
      rcases mem_collectTextEmails _ _ e he with h | ⟨m, hm, hx, hlen, hph⟩
      · rcases mem_collectAnchorContacts_emails _ _ _ e h with h2 | h2
        · simp at h2
        · exact Or.inl h2
      · right
        obtain ⟨l, d, t, hdec, hl, hla, hd, hda, hta, htl⟩ :=
          emailFindAllGo_sound _ _ m hm
        have hstrip : pyStrip m = m := by
          rw [hdec]
          exact pyStrip_email_match l d t hl hla hta htl
        refine ⟨⟨l, d, t, ?_, hl, hla, hd, hda, hta, htl⟩, hlen, hph⟩
        rw [hx, toList_mk, hstrip, hdec]

/-- Witness for C1: the `mailto:` target of a concrete page is in the email
set and the disjunction holds for it. -/
theorem C1_witness :
    ("sales@acme.com" : String) ∈ (extract_contacts_from_page (.response 200 salesPage)).1 ∧
    ((∃ a ∈ salesPage.anchors, startsWithS a.href "mailto:" = true ∧
        ("sales@acme.com" : String) = mailtoTarget a.href) ∨
      (MatchesEmail "sales@acme.com" ∧ 6 ≤ ("sales@acme.com" : String).length ∧
        hasPlaceholderSuffix "sales@acme.com" = false)) := by
  refine ⟨by decide, C1_email_sources 200 salesPage "sales@acme.com" (by decide)⟩

end ContactScraper
